import Mathlib

/-!
Shallow embedding of the daign-handle gesture library.

The drag engines are embedded from `src/lib/handle.ts` (class `Handle`) and
`src/lib/multiTouchHandle.ts` (class `MultiTouchHandle`); the scroll adapters
from `src/lib/multiTouchScrollHandle.ts` and the `ScrollHandle` source file.
Event handlers become pure functions from an explicit engine state and an
event to the next state plus a record of which user callbacks were invoked
and how many listeners were registered on the document scope.  TypeScript
exceptions become `Except`, `undefined` fields become `Option`, and the
coordinates carried by DOM events are integers, on which the ring
operations and order comparisons used by the source are exact.
-/

/-- Coordinates of a 2D point, mirroring the `Vector2` class of the
`daign/math` collaborator package as far as the handle code uses it. -/
structure Vector2 where
  x : ℤ
  y : ℤ
deriving DecidableEq

/-- Componentwise addition, mirroring `Vector2.add`. -/
def Vector2.add (a b : Vector2) : Vector2 := ⟨a.x + b.x, a.y + b.y⟩

/-- Componentwise subtraction, mirroring `Vector2.sub`. -/
def Vector2.sub (a b : Vector2) : Vector2 := ⟨a.x - b.x, a.y - b.y⟩

/-- The zero vector, mirroring `new Vector2()`. -/
def Vector2.zero : Vector2 := ⟨0, 0⟩

/-- Squared Euclidean length of a vector. -/
def Vector2.lengthSq (a : Vector2) : ℤ := a.x * a.x + a.y * a.y

/-- The comparison `v.length() >= d` of the source, expressed without square
roots: since `length = sqrt (lengthSq)` is nonnegative, `d ≤ length` holds
exactly when `d ≤ 0` or `d * d ≤ lengthSq`. -/
def Vector2.lengthGe (v : Vector2) (d : ℤ) : Bool :=
  decide (d ≤ 0 ∨ d * d ≤ v.lengthSq)

/-- The slice of a DOM input event that the handle code reads: optional
client coordinates (`clientX`/`clientY`), the list of touch points of a
touch event (each reduced to its client coordinates), and for wheel events
an optional scroll delta (`deltaX`/`deltaY`) with its `deltaMode`. -/
structure DomEvent where
  clientPoint : Option Vector2 := none
  touches : List Vector2 := []
  scrollDelta : Option Vector2 := none
  deltaMode : Int := 0
deriving DecidableEq

/-- Modelled from the spec: the absolute coordinate extractor
`new Vector2().setFromEvent( event )` of the `daign/math` collaborator.
It throws when the event carries no client coordinates, which the repository
tests rely on (a `MockEvent` without a client point makes extraction fail). -/
def setFromEvent (e : DomEvent) : Except Unit Vector2 :=
  match e.clientPoint with
  | some p => Except.ok p
  | none => Except.error ()

/-- Modelled from the spec: `new Vector2().setFromTouchEvent( event, i )` of
the `daign/math` collaborator; it reads the coordinates of touch point `i`
and throws when that touch point does not exist. -/
def setFromTouchEvent (e : DomEvent) (i : ℕ) : Except Unit Vector2 :=
  match e.touches.get? i with
  | some p => Except.ok p
  | none => Except.error ()

/-- Modelled from the spec: `Vector2.setFromScrollEvent( event )` of the
`daign/math` collaborator; it throws when the wheel event lacks scroll delta
information, which is how the scroll handles detect malformed events. -/
def setFromScrollEvent (e : DomEvent) : Except Unit Vector2 :=
  match e.scrollDelta with
  | some p => Except.ok p
  | none => Except.error ()

/-- Configuration of the single-pointer `Handle`, from `src/lib/handle.ts`:
`minimumDragDistance` (default 5) and the replaceable `extractFromEvent`
(default: the absolute extractor).  `throttleInterval` only feeds the
throttle and plays no role in the per-event state transitions. -/
structure HandleCfg where
  minimumDragDistance : ℤ := 5
  extractFromEvent : DomEvent → Except Unit Vector2 := setFromEvent

/-- Mutable state of a `Handle` instance (`src/lib/handle.ts` lines 28-41):
`_start` and `_absoluteStart` are `Vector2 | undefined`, while `_temp` and
`_delta` are plain vectors initialised to `new Vector2()`. -/
structure HandleState where
  start : Option Vector2
  absoluteStart : Option Vector2
  temp : Vector2
  delta : Vector2
  enabled : Bool
deriving DecidableEq

/-- State of a freshly constructed `Handle`. -/
def HandleState.initial : HandleState :=
  { start := none, absoluteStart := none, temp := Vector2.zero,
    delta := Vector2.zero, enabled := true }

/-- How `Handle.beginDrag` resolved the start event. -/
inductive BeginResult where
  | disabled
  | extractionFailed
  | vetoed
  | active
deriving DecidableEq

/-- Embedding of `Handle.beginDrag` (`src/lib/handle.ts` lines 134-157,
up to the decision whether listeners get attached): cancel when disabled;
extract `start` with the custom extractor and `absoluteStart` with the
absolute one, assigning both only when neither extraction throws; on a
throw return without touching the state; then consult `beginning`. -/
def beginDrag (cfg : HandleCfg) (beginning : DomEvent → Bool)
    (st : HandleState) (startEvent : DomEvent) : HandleState × BeginResult :=
  if !st.enabled then (st, BeginResult.disabled)
  else
    match cfg.extractFromEvent startEvent, setFromEvent startEvent with
    | Except.ok startPosition, Except.ok absoluteStartPosition =>
      let st := { st with start := some startPosition,
                          absoluteStart := some absoluteStartPosition }
      if beginning startEvent then (st, BeginResult.active)
      else (st, BeginResult.vetoed)
    | _, _ => (st, BeginResult.extractionFailed)

/-- Result of one `continueDrag` call: the new state, the new value of the
session-local `dragged` flag, and whether `continuing` was invoked. -/
structure MoveOutcome where
  state : HandleState
  dragged : Bool
  continuingInvoked : Bool
deriving DecidableEq

/-- Embedding of the `continueDrag` closure (`src/lib/handle.ts` lines
164-201): bail out when the start positions are missing; recompute
`delta = absoluteTemp - absoluteStart` and `temp = start + delta` from the
absolute extractor, skipping the event when extraction throws; before the
minimum drag distance is reached return without invoking `continuing`;
once reached, set `dragged` and invoke `continuing`. -/
def moveStep (cfg : HandleCfg) (st : HandleState) (dragged : Bool)
    (moveEvent : DomEvent) : MoveOutcome :=
  match st.start, st.absoluteStart with
  | some s, some aS =>
    match setFromEvent moveEvent with
    | Except.ok absoluteTemp =>
      let delta := absoluteTemp.sub aS
      let temp := s.add delta
      let st := { st with delta := delta, temp := temp }
      if !dragged then
        if delta.lengthGe cfg.minimumDragDistance then
          { state := st, dragged := true, continuingInvoked := true }
        else
          { state := st, dragged := false, continuingInvoked := false }
      else
        { state := st, dragged := true, continuingInvoked := true }
    | Except.error _ =>
      { state := st, dragged := dragged, continuingInvoked := false }
  | _, _ => { state := st, dragged := dragged, continuingInvoked := false }

/-- Deliver a list of move events through `continueDrag`, collecting for
each event whether `continuing` was invoked. -/
def processMoves (cfg : HandleCfg) :
    HandleState → Bool → List DomEvent → HandleState × Bool × List Bool
  | st, dragged, [] => (st, dragged, [])
  | st, dragged, e :: rest =>
    let m := moveStep cfg st dragged e
    let r := processMoves cfg m.state m.dragged rest
    (r.1, r.2.1, m.continuingInvoked :: r.2.2)

/-- Result of `endDrag`: the new state and which callbacks were invoked. -/
structure EndOutcome where
  state : HandleState
  endingInvoked : Bool
  clickedInvoked : Bool
  cleanupInvoked : Bool
deriving DecidableEq

/-- Embedding of the `endDrag` closure (`src/lib/handle.ts` lines 206-239):
when the start positions are present, a `try` block recomputes `temp` and
`delta` from the end event and then calls `ending` or `clicked` depending on
`dragged`; a throw inside the block (extraction failure) is swallowed and
skips those callbacks.  Listeners are removed and `cleanup` runs in every
case after the block. -/
def endDrag (st : HandleState) (dragged : Bool) (endEvent : DomEvent) :
    EndOutcome :=
  match st.start, st.absoluteStart with
  | some s, some aS =>
    match setFromEvent endEvent with
    | Except.ok absoluteTemp =>
      let delta := absoluteTemp.sub aS
      let temp := s.add delta
      { state := { st with delta := delta, temp := temp },
        endingInvoked := dragged, clickedInvoked := !dragged,
        cleanupInvoked := true }
    | Except.error _ =>
      { state := st, endingInvoked := false, clickedInvoked := false,
        cleanupInvoked := true }
  | _, _ =>
    { state := st, endingInvoked := false, clickedInvoked := false,
      cleanupInvoked := true }

/-- Observable trace of one complete start/move/end cycle of a `Handle`:
final state, how the start event resolved, which callbacks ran, how often
`continuing` ran (one flag per delivered move event) and how many listeners
were registered and removed on the document scope. -/
structure SessionTrace where
  finalState : HandleState
  result : BeginResult
  beginningInvoked : Bool
  docListenersAdded : ℕ
  docListenersRemoved : ℕ
  continuingFlags : List Bool
  endingInvoked : Bool
  clickedInvoked : Bool
  cleanupInvoked : Bool
  dragged : Bool
deriving DecidableEq

/-- One complete session of `Handle`: `beginDrag` on the start event; when
and only when it returns `active`, seven listeners (`mousemove`,
`touchmove`, `selectstart`, `mouseup`, `touchend`, `touchcancel`,
`touchleave`) go on the document, the move events flow through
`continueDrag`, and `endDrag` removes all seven and runs `cleanup`.
`beginning` has been invoked exactly when extraction succeeded, so also in
the vetoed case. -/
def runSession (cfg : HandleCfg) (beginning : DomEvent → Bool)
    (st₀ : HandleState) (startE : DomEvent) (moves : List DomEvent)
    (endE : DomEvent) : SessionTrace :=
  match beginDrag cfg beginning st₀ startE with
  | (st₁, BeginResult.active) =>
    let p := processMoves cfg st₁ false moves
    let e := endDrag p.1 p.2.1 endE
    { finalState := e.state, result := BeginResult.active,
      beginningInvoked := true, docListenersAdded := 7,
      docListenersRemoved := 7, continuingFlags := p.2.2,
      endingInvoked := e.endingInvoked, clickedInvoked := e.clickedInvoked,
      cleanupInvoked := e.cleanupInvoked, dragged := p.2.1 }
  | (st₁, r) =>
    { finalState := st₁, result := r,
      beginningInvoked := decide (r = BeginResult.vetoed),
      docListenersAdded := 0, docListenersRemoved := 0,
      continuingFlags := [], endingInvoked := false, clickedInvoked := false,
      cleanupInvoked := false, dragged := false }

/-- The default `beginning` callback of both drag engines returns `false`
(`src/lib/handle.ts` lines 105-107, `src/lib/multiTouchHandle.ts` lines
137-139). -/
def defaultBeginning : DomEvent → Bool := fun _ => false

/-- Configuration of `MultiTouchHandle` (`src/lib/multiTouchHandle.ts`):
the threshold plus the two replaceable extractors, defaulting to the
absolute ones. -/
structure MTCfg where
  minimumDragDistance : ℤ := 5
  extractFromEvent : DomEvent → Except Unit Vector2 := setFromEvent
  extractFromTouchEvent : DomEvent → ℕ → Except Unit Vector2 := setFromTouchEvent

/-- Mutable state of a `MultiTouchHandle` instance
(`src/lib/multiTouchHandle.ts` lines 38-51): four position arrays, all
initially empty, plus the `enabled` flag. -/
structure MTState where
  startPositions : List Vector2
  absoluteStartPositions : List Vector2
  tempPositions : List Vector2
  deltaVectors : List Vector2
  enabled : Bool
deriving DecidableEq

/-- State of a freshly constructed `MultiTouchHandle`. -/
def MTState.initial : MTState :=
  { startPositions := [], absoluteStartPositions := [], tempPositions := [],
    deltaVectors := [], enabled := true }

/-- The per-index body of the loop in `MultiTouchHandle.updatePositions`
(`src/lib/multiTouchHandle.ts` lines 178-192): for a touch index that was
already present on the start event, recompute the delta from the absolute
coordinates and the temp position from start plus delta.  The position
arrays always have equal length (they are pushed in lockstep by
`beginDrag`), so reading the start arrays with a zero default is only a
totalisation of the unreachable out-of-range case. -/
def applyTouch (st : MTState) (i : ℕ) (absoluteTemp : Vector2) : MTState :=
  if i < st.startPositions.length then
    let delta := absoluteTemp.sub (st.absoluteStartPositions.getD i Vector2.zero)
    let temp := (st.startPositions.getD i Vector2.zero).add delta
    { st with deltaVectors := st.deltaVectors.set i delta,
              tempPositions := st.tempPositions.set i temp }
  else st

/-- Embedding of `MultiTouchHandle.updatePositions`
(`src/lib/multiTouchHandle.ts` lines 165-201).  When any of the four
position arrays is empty it throws the error
`Missing start positions to calculate drag.`; with a touch list it updates
every tracked touch index; otherwise it takes the single position from the
mouse event, whose extraction may throw. -/
def updatePositions (st : MTState) (e : DomEvent) : Except String MTState :=
  if st.startPositions.isEmpty || st.absoluteStartPositions.isEmpty ||
      st.tempPositions.isEmpty || st.deltaVectors.isEmpty then
    Except.error "Missing start positions to calculate drag."
  else if !e.touches.isEmpty then
    Except.ok (e.touches.enum.foldl (fun s p => applyTouch s p.1 p.2) st)
  else
    match setFromEvent e with
    | Except.ok absoluteTemp =>
      let delta := absoluteTemp.sub (st.absoluteStartPositions.getD 0 Vector2.zero)
      let temp := (st.startPositions.getD 0 Vector2.zero).add delta
      Except.ok { st with deltaVectors := st.deltaVectors.set 0 delta,
                          tempPositions := st.tempPositions.set 0 temp }
    | Except.error _ => Except.error "Unable to extract coordinates from event."

/-- The push loop of `MultiTouchHandle.beginDrag` over the touch indices
(`src/lib/multiTouchHandle.ts` lines 229-238): for each index extract the
custom start position and the absolute start position and push them together
with a zero delta and a copy of the start position.  A throw aborts the loop
but keeps the entries pushed so far, exactly like the surrounding
`try`/`catch` of the source; the returned flag tells whether the whole loop
ran without a throw. -/
def mtPushAll (cfg : MTCfg) (e : DomEvent) : MTState → List ℕ → MTState × Bool
  | st, [] => (st, true)
  | st, i :: rest =>
    match cfg.extractFromTouchEvent e i with
    | Except.error _ => (st, false)
    | Except.ok position =>
      let st := { st with startPositions := st.startPositions ++ [position] }
      match setFromTouchEvent e i with
      | Except.error _ => (st, false)
      | Except.ok absolutePosition =>
        let st := { st with
          absoluteStartPositions := st.absoluteStartPositions ++ [absolutePosition],
          deltaVectors := st.deltaVectors ++ [Vector2.zero],
          tempPositions := st.tempPositions ++ [position] }
        mtPushAll cfg e st rest

/-- Embedding of `MultiTouchHandle.beginDrag`
(`src/lib/multiTouchHandle.ts` lines 208-262, up to the decision whether
listeners get attached): cancel when disabled; clear all four position
arrays from the previous drag; fill them from the touch list, or from the
plain mouse event when the event carries no touches; an extraction throw
cancels the action; finally consult `beginning`. -/
def mtBeginDrag (cfg : MTCfg) (beginning : DomEvent → Bool)
    (st : MTState) (startEvent : DomEvent) : MTState × BeginResult :=
  if !st.enabled then (st, BeginResult.disabled)
  else
    let st := { st with startPositions := [], absoluteStartPositions := [],
                        tempPositions := [], deltaVectors := [] }
    if !startEvent.touches.isEmpty then
      let r := mtPushAll cfg startEvent st (List.range startEvent.touches.length)
      if r.2 then
        if beginning startEvent then (r.1, BeginResult.active)
        else (r.1, BeginResult.vetoed)
      else (r.1, BeginResult.extractionFailed)
    else
      match cfg.extractFromEvent startEvent with
      | Except.error _ => (st, BeginResult.extractionFailed)
      | Except.ok position =>
        let st := { st with startPositions := st.startPositions ++ [position] }
        match setFromEvent startEvent with
        | Except.error _ => (st, BeginResult.extractionFailed)
        | Except.ok absolutePosition =>
          let st := { st with
            absoluteStartPositions := st.absoluteStartPositions ++ [absolutePosition],
            deltaVectors := st.deltaVectors ++ [Vector2.zero],
            tempPositions := st.tempPositions ++ [position] }
          if beginning startEvent then (st, BeginResult.active)
          else (st, BeginResult.vetoed)

/-- Result of one multi-touch `continueDrag` call. -/
structure MTMoveOutcome where
  state : MTState
  dragged : Bool
  continuingInvoked : Bool
deriving DecidableEq

/-- Embedding of the multi-touch `continueDrag` closure
(`src/lib/multiTouchHandle.ts` lines 269-295): run `updatePositions` inside
`try`/`catch`, skipping the event when it throws; before the threshold has
been reached, `continuing` fires only when some tracked delta reaches
`minimumDragDistance`, and from then on it fires on every processed move. -/
def mtMoveStep (cfg : MTCfg) (st : MTState) (dragged : Bool)
    (moveEvent : DomEvent) : MTMoveOutcome :=
  match updatePositions st moveEvent with
  | Except.error _ =>
    { state := st, dragged := dragged, continuingInvoked := false }
  | Except.ok st =>
    if !dragged then
      if st.deltaVectors.any (fun d => d.lengthGe cfg.minimumDragDistance) then
        { state := st, dragged := true, continuingInvoked := true }
      else
        { state := st, dragged := false, continuingInvoked := false }
    else
      { state := st, dragged := true, continuingInvoked := true }

/-- Deliver a list of move events through the multi-touch `continueDrag`. -/
def mtProcessMoves (cfg : MTCfg) :
    MTState → Bool → List DomEvent → MTState × Bool × List Bool
  | st, dragged, [] => (st, dragged, [])
  | st, dragged, e :: rest =>
    let m := mtMoveStep cfg st dragged e
    let r := mtProcessMoves cfg m.state m.dragged rest
    (r.1, r.2.1, m.continuingInvoked :: r.2.2)

/-- Result of the multi-touch `endDrag`. -/
structure MTEndOutcome where
  state : MTState
  endingInvoked : Bool
  clickedInvoked : Bool
  cleanupInvoked : Bool
deriving DecidableEq

/-- Embedding of the multi-touch `endDrag` closure
(`src/lib/multiTouchHandle.ts` lines 300-330): `updatePositions` runs inside
`try`/`catch` with an empty handler, and afterwards `ending` or `clicked` is
invoked unconditionally depending on `dragged`; the listeners are removed and
`cleanup` runs in every case. -/
def mtEndDrag (st : MTState) (dragged : Bool) (endEvent : DomEvent) :
    MTEndOutcome :=
  let st := match updatePositions st endEvent with
    | Except.ok st => st
    | Except.error _ => st
  { state := st, endingInvoked := dragged, clickedInvoked := !dragged,
    cleanupInvoked := true }

/-- Observable trace of one complete session of `MultiTouchHandle`,
analogous to `SessionTrace`. -/
structure MTSessionTrace where
  finalState : MTState
  result : BeginResult
  beginningInvoked : Bool
  docListenersAdded : ℕ
  docListenersRemoved : ℕ
  continuingFlags : List Bool
  endingInvoked : Bool
  clickedInvoked : Bool
  cleanupInvoked : Bool
  dragged : Bool
deriving DecidableEq

/-- One complete session of `MultiTouchHandle`, wiring `mtBeginDrag`,
`mtProcessMoves` and `mtEndDrag` together like the listener registrations in
`src/lib/multiTouchHandle.ts` lines 262-343 do. -/
def mtRunSession (cfg : MTCfg) (beginning : DomEvent → Bool)
    (st₀ : MTState) (startE : DomEvent) (moves : List DomEvent)
    (endE : DomEvent) : MTSessionTrace :=
  match mtBeginDrag cfg beginning st₀ startE with
  | (st₁, BeginResult.active) =>
    let p := mtProcessMoves cfg st₁ false moves
    let e := mtEndDrag p.1 p.2.1 endE
    { finalState := e.state, result := BeginResult.active,
      beginningInvoked := true, docListenersAdded := 7,
      docListenersRemoved := 7, continuingFlags := p.2.2,
      endingInvoked := e.endingInvoked, clickedInvoked := e.clickedInvoked,
      cleanupInvoked := e.cleanupInvoked, dragged := p.2.1 }
  | (st₁, r) =>
    { finalState := st₁, result := r,
      beginningInvoked := decide (r = BeginResult.vetoed),
      docListenersAdded := 0, docListenersRemoved := 0,
      continuingFlags := [], endingInvoked := false, clickedInvoked := false,
      cleanupInvoked := false, dragged := false }

/-- State of a scroll handle: the captured scroll delta, delta mode and
scroll position, plus the `enabled` flag (the drag part of the state is
inherited and independent). -/
structure ScrollState where
  scroll : Vector2
  scrollMode : Int
  scrollPosition : Vector2
  enabled : Bool
deriving DecidableEq

/-- State of a freshly constructed scroll handle. -/
def ScrollState.initial : ScrollState :=
  { scroll := Vector2.zero, scrollMode := 0,
    scrollPosition := Vector2.zero, enabled := true }

/-- Result of one `beginScroll` call that returned normally: the new state,
whether `scrolling` was invoked, and the boolean value returned to the event
dispatcher (`true` when disabled, otherwise `false` to suppress the default
scroll action). -/
structure ScrollOutcome where
  state : ScrollState
  scrollingInvoked : Bool
  returnValue : Bool
deriving DecidableEq

/-- Embedding of `MultiTouchScrollHandle.beginScroll`
(`src/lib/multiTouchScrollHandle.ts` lines 70-88): when enabled it captures
the scroll delta, the delta mode and the extracted position and invokes
`scrolling`, with no `try`/`catch` anywhere — a throw from
`setFromScrollEvent` or from the extractor escapes the handler, modelled as
`Except.error`. -/
def mtsBeginScroll (extract : DomEvent → Except Unit Vector2)
    (st : ScrollState) (scrollEvent : DomEvent) : Except Unit ScrollOutcome :=
  if !st.enabled then
    Except.ok { state := st, scrollingInvoked := false, returnValue := true }
  else
    match setFromScrollEvent scrollEvent with
    | Except.error _ => Except.error ()
    | Except.ok sd =>
      let st := { st with scroll := sd, scrollMode := scrollEvent.deltaMode }
      match extract scrollEvent with
      | Except.error _ => Except.error ()
      | Except.ok p =>
        Except.ok { state := { st with scrollPosition := p },
                    scrollingInvoked := true, returnValue := false }

/-- Embedding of `ScrollHandle.beginScroll` from the `ScrollHandle` source
file (`src/unnamed/part_000` lines 172-193): the same capture sequence, but
the whole block including the `scrolling()` call sits in a `try` with an
empty `catch`, so a malformed event is silently ignored, no exception
escapes, and the handler still returns `false`. -/
def shBeginScroll (extract : DomEvent → Except Unit Vector2)
    (st : ScrollState) (scrollEvent : DomEvent) : ScrollOutcome :=
  if !st.enabled then
    { state := st, scrollingInvoked := false, returnValue := true }
  else
    match setFromScrollEvent scrollEvent with
    | Except.error _ =>
      { state := st, scrollingInvoked := false, returnValue := false }
    | Except.ok sd =>
      let st := { st with scroll := sd, scrollMode := scrollEvent.deltaMode }
      match extract scrollEvent with
      | Except.error _ =>
        { state := st, scrollingInvoked := false, returnValue := false }
      | Except.ok p =>
        { state := { st with scrollPosition := p },
          scrollingInvoked := true, returnValue := false }

/-- Modelled from the spec: the state of `Schedule.deferringThrottle` from
the `daign/schedule` collaborator package, whose source is not part of this
repository.  Per the specification a throttle with interval `T` keeps at
most one open window, ending at `windowEnd`, and one pending slot holding
the most recent deferred argument. -/
structure ThrottleState (α : Type) where
  windowEnd : Option ℤ
  pending : Option α

/-- Modelled from the spec: advance the throttle to time `now`, firing the
deferred execution at the window boundary when one is pending (clause (c):
exactly one deferred execution, which opens a fresh window), and closing a
window that expired without a pending call (quiescence). -/
def throttleFlush (T : ℤ) (st : ThrottleState α) (now : ℤ) :
    ThrottleState α × List (ℤ × α) :=
  match st.windowEnd with
  | none => (st, [])
  | some w =>
    if w ≤ now then
      match st.pending with
      | some a =>
        if w + T ≤ now then ({ windowEnd := none, pending := none }, [(w, a)])
        else ({ windowEnd := some (w + T), pending := none }, [(w, a)])
      | none => ({ windowEnd := none, pending := none }, [])
    else (st, [])

/-- Modelled from the spec: one call into the throttled function at time
`t`.  A call inside an open window is deferred, superseding any pending one
(clause (b), trailing-edge coalescing); a call in a quiescent period
executes immediately and opens a window of length `T` (clause (a)). -/
def throttleCall (T : ℤ) (st : ThrottleState α) (t : ℤ) (a : α) :
    ThrottleState α × List (ℤ × α) :=
  let f := throttleFlush T st t
  match f.1.windowEnd with
  | some _ => ({ f.1 with pending := some a }, f.2)
  | none => ({ windowEnd := some (t + T), pending := none }, f.2 ++ [(t, a)])

/-- Modelled from the spec: run a sequence of timed calls through the
throttle, concatenating the executions they trigger. -/
def throttleRun (T : ℤ) : ThrottleState α → List (ℤ × α) →
    ThrottleState α × List (ℤ × α)
  | st, [] => (st, [])
  | st, (t, a) :: rest =>
    let c := throttleCall T st t a
    let r := throttleRun T c.1 rest
    (r.1, c.2 ++ r.2)

/-- Modelled from the spec: after the last call, a pending deferred call
still fires at its window boundary (clause (c): the most recent call is
never starved). -/
def throttleFinalize (st : ThrottleState α) : List (ℤ × α) :=
  match st.windowEnd, st.pending with
  | some w, some a => [(w, a)]
  | _, _ => []

/-- Modelled from the spec: the complete execution trace of the throttle on
a call sequence starting from the quiescent state. -/
def throttleTrace (T : ℤ) (calls : List (ℤ × α)) : List (ℤ × α) :=
  let r := throttleRun T { windowEnd := none, pending := none } calls
  r.2 ++ throttleFinalize r.1

/-- Whether a move event is successfully processed by `continueDrag` in a
given state: the start positions are present and the absolute extraction of
the current position succeeds (otherwise the event is skipped). -/
def moveProcessed (st : HandleState) (e : DomEvent) : Bool :=
  st.start.isSome && st.absoluteStart.isSome &&
    (match setFromEvent e with
     | Except.ok _ => true
     | Except.error _ => false)

/-- Start extraction of `MultiTouchHandle.beginDrag` throws: on an event
with touches, the custom touch extractor throws at some touch index; on an
event without touches, the single-point extraction throws. -/
def mtStartExtractionFails (cfg : MTCfg) (e : DomEvent) : Prop :=
  if e.touches.isEmpty then
    cfg.extractFromEvent e = Except.error () ∨ setFromEvent e = Except.error ()
  else
    ∃ i, i < e.touches.length ∧ cfg.extractFromTouchEvent e i = Except.error ()

/-- Subtracting after adding the same vector cancels componentwise. -/
theorem Vector2.add_sub_add (a b c : Vector2) :
    (a.add c).sub (b.add c) = a.sub b := by
  simp only [Vector2.add, Vector2.sub, Vector2.mk.injEq]
  constructor <;> ring

/-- A `beginning` callback that returns `false` on the start event never
yields an active session. -/
theorem beginDrag_not_active_of_false (cfg : HandleCfg)
    (beginning : DomEvent → Bool) (st : HandleState) (e : DomEvent)
    (h : beginning e = false) :
    (beginDrag cfg beginning st e).2 ≠ BeginResult.active := by
  unfold beginDrag
  cases hEn : st.enabled with
  | false => simp
  | true =>
    simp only [hEn, Bool.not_true, Bool.false_eq_true, if_false]
    cases h₁ : cfg.extractFromEvent e with
    | error u => simp
    | ok p =>
      cases h₂ : setFromEvent e with
      | error u => simp
      | ok q => simp [h]

/-- When start extraction throws while the handle is enabled, `beginDrag`
returns with the state untouched and no listeners or `beginning` call. -/
theorem beginDrag_extraction_error (cfg : HandleCfg)
    (beginning : DomEvent → Bool) (st : HandleState) (e : DomEvent)
    (h : cfg.extractFromEvent e = Except.error () ∨
      setFromEvent e = Except.error ()) (hEn : st.enabled = true) :
    beginDrag cfg beginning st e = (st, BeginResult.extractionFailed) := by
  unfold beginDrag
  simp only [hEn, Bool.not_true, Bool.false_eq_true, if_false]
  cases h₁ : cfg.extractFromEvent e with
  | error u => rfl
  | ok p =>
    cases h₂ : setFromEvent e with
    | error u => rfl
    | ok q =>
      rcases h with h | h
      · rw [h₁] at h; exact absurd h (by simp)
      · rw [h₂] at h; exact absurd h (by simp)

/-- When the custom touch extractor throws at some index of the list, the
push loop of the multi-touch `beginDrag` reports failure. -/
theorem mtPushAll_fails (cfg : MTCfg) (e : DomEvent) (l : List ℕ)
    (st : MTState) (i : ℕ) (hi : i ∈ l)
    (hf : cfg.extractFromTouchEvent e i = Except.error ()) :
    (mtPushAll cfg e st l).2 = false := by
  induction l generalizing st with
  | nil => cases hi
  | cons j rest ih =>
    unfold mtPushAll
    cases hj : cfg.extractFromTouchEvent e j with
    | error u => rfl
    | ok p =>
      cases hj₂ : setFromTouchEvent e j with
      | error u => simp [hj, hj₂]
      | ok q =>
        have hij : i ∈ rest := by
          rcases List.mem_cons.mp hi with h | h
          · subst h; rw [hj] at hf; exact absurd hf (by simp)
          · exact h
        simp only [hj, hj₂]
        exact ih _ hij

/-- When start extraction throws while the handle is enabled, the
multi-touch `beginDrag` resolves to `extractionFailed`. -/
theorem mtBeginDrag_extraction_error (cfg : MTCfg)
    (beginning : DomEvent → Bool) (st : MTState) (e : DomEvent)
    (h : mtStartExtractionFails cfg e) (hEn : st.enabled = true) :
    (mtBeginDrag cfg beginning st e).2 = BeginResult.extractionFailed := by
  unfold mtBeginDrag
  simp only [hEn, Bool.not_true, Bool.false_eq_true, if_false]
  unfold mtStartExtractionFails at h
  cases hT : e.touches.isEmpty with
  | true =>
    rw [hT] at h
    simp only [if_true] at h
    simp only [hT, Bool.not_true, Bool.false_eq_true, if_false]
    cases h₁ : cfg.extractFromEvent e with
    | error u => rfl
    | ok p =>
      cases h₂ : setFromEvent e with
      | error u => rfl
      | ok q =>
        rcases h with h | h
        · rw [h₁] at h; exact absurd h (by simp)
        · rw [h₂] at h; exact absurd h (by simp)
  | false =>
    rw [hT] at h
    simp only [Bool.false_eq_true, if_false] at h
    simp only [hT, Bool.not_false, if_true]
    obtain ⟨i, hlen, hf⟩ := h
    have : (mtPushAll cfg e
        { startPositions := [], absoluteStartPositions := [],
          tempPositions := [], deltaVectors := [], enabled := true }
        (List.range e.touches.length)).2 = false :=
      mtPushAll_fails cfg e _ _ i (List.mem_range.mpr hlen) hf
    simp [this]

/-- C8: invoking the multi-touch position-update routine when no session has
started (all position arrays empty, as on a freshly constructed handle)
throws the named error `Missing start positions to calculate drag.` for
every event, rather than silently no-opping. -/
theorem updatePositions_without_session_throws (e : DomEvent) :
    updatePositions MTState.initial e =
      Except.error "Missing start positions to calculate drag." := rfl

/-- C6: in `src/lib/handle.ts` only `_start` (and `_absoluteStart`) are
absent before a session; `_temp` and `_delta` are initialised to the
zero-vector sentinel `new Vector2()`, observable through the `temp` and
`delta` getters of a freshly constructed handle, contradicting the claim
that all three observable positions are absent until a session sets them. -/
theorem handle_initial_temp_delta_zero_vector_sentinels :
    HandleState.initial.start = none ∧
    HandleState.initial.absoluteStart = none ∧
    HandleState.initial.temp = Vector2.zero ∧
    HandleState.initial.delta = Vector2.zero :=
  ⟨rfl, rfl, rfl, rfl⟩

/-- C1: counter-evidence on the single-pointer engine.  In the session that
starts at (0,0), drags to (10,10) and receives an end event without
coordinates, the end extraction throws inside the `try` block of `endDrag`
that also contains the terminal callbacks, so neither `ending` nor `clicked`
is invoked even though the session completed as a drag; `cleanup` still
runs.  This contradicts the claim that exactly one terminal callback fires
even when end extraction fails.  The multi-touch engine at the same input
behaves as claimed: its `endDrag` keeps the terminal callbacks outside the
`try` block, so `ending` and `cleanup` both fire. -/
theorem handle_end_extraction_failure_skips_terminal_callbacks :
    (runSession {} (fun _ => true) HandleState.initial
        { clientPoint := some ⟨0, 0⟩ } [{ clientPoint := some ⟨10, 10⟩ }]
        {}).dragged = true ∧
    (runSession {} (fun _ => true) HandleState.initial
        { clientPoint := some ⟨0, 0⟩ } [{ clientPoint := some ⟨10, 10⟩ }]
        {}).endingInvoked = false ∧
    (runSession {} (fun _ => true) HandleState.initial
        { clientPoint := some ⟨0, 0⟩ } [{ clientPoint := some ⟨10, 10⟩ }]
        {}).clickedInvoked = false ∧
    (runSession {} (fun _ => true) HandleState.initial
        { clientPoint := some ⟨0, 0⟩ } [{ clientPoint := some ⟨10, 10⟩ }]
        {}).cleanupInvoked = true ∧
    (mtRunSession {} (fun _ => true) MTState.initial
        { clientPoint := some ⟨0, 0⟩ } [{ clientPoint := some ⟨10, 10⟩ }]
        {}).dragged = true ∧
    (mtRunSession {} (fun _ => true) MTState.initial
        { clientPoint := some ⟨0, 0⟩ } [{ clientPoint := some ⟨10, 10⟩ }]
        {}).endingInvoked = true ∧
    (mtRunSession {} (fun _ => true) MTState.initial
        { clientPoint := some ⟨0, 0⟩ } [{ clientPoint := some ⟨10, 10⟩ }]
        {}).clickedInvoked = false ∧
    (mtRunSession {} (fun _ => true) MTState.initial
        { clientPoint := some ⟨0, 0⟩ } [{ clientPoint := some ⟨10, 10⟩ }]
        {}).cleanupInvoked = true := by
  decide

/-- C5: counter-evidence on the single-pointer engine.  `Handle.beginDrag`
never clears `_start`, `_absoluteStart`, `_temp` or `_delta`, so when a
second session starts with an event whose extraction throws, all four keep
the values of the prior session (start (1,2), delta (9,18), temp (10,20))
instead of becoming absent.  The multi-touch engine at the analogous input
behaves as claimed: `MultiTouchHandle.beginDrag` clears its four position
arrays before attempting extraction, so after the failed second start they
are empty rather than retaining prior values. -/
theorem handle_beginDrag_retains_prior_session_positions :
    (beginDrag {} (fun _ => true)
        { start := some ⟨1, 2⟩, absoluteStart := some ⟨1, 2⟩,
          temp := ⟨10, 20⟩, delta := ⟨9, 18⟩, enabled := true } {}).2 =
      BeginResult.extractionFailed ∧
    (beginDrag {} (fun _ => true)
        { start := some ⟨1, 2⟩, absoluteStart := some ⟨1, 2⟩,
          temp := ⟨10, 20⟩, delta := ⟨9, 18⟩, enabled := true } {}).1 =
      { start := some ⟨1, 2⟩, absoluteStart := some ⟨1, 2⟩,
        temp := ⟨10, 20⟩, delta := ⟨9, 18⟩, enabled := true } ∧
    (mtBeginDrag {} (fun _ => true)
        { startPositions := [⟨1, 2⟩], absoluteStartPositions := [⟨1, 2⟩],
          tempPositions := [⟨10, 20⟩], deltaVectors := [⟨9, 18⟩],
          enabled := true } {}).2 = BeginResult.extractionFailed ∧
    (mtBeginDrag {} (fun _ => true)
        { startPositions := [⟨1, 2⟩], absoluteStartPositions := [⟨1, 2⟩],
          tempPositions := [⟨10, 20⟩], deltaVectors := [⟨9, 18⟩],
          enabled := true } {}).1 =
      { startPositions := [], absoluteStartPositions := [],
        tempPositions := [], deltaVectors := [], enabled := true } := by
  decide

/-- C9: on a wheel event that carries client coordinates (3,4) but no
scroll delta, `MultiTouchScrollHandle.beginScroll` from
`src/lib/multiTouchScrollHandle.ts` lets the extraction error escape the
handler (no `try`/`catch`), while `ScrollHandle.beginScroll` ignores the
malformed event silently, does not invoke `scrolling` and still returns
`false`; in both variants `scrolling` is not invoked. -/
theorem multiTouchScroll_missing_delta_throws_scrollHandle_silent :
    mtsBeginScroll setFromEvent ScrollState.initial
        { clientPoint := some ⟨3, 4⟩ } = Except.error () ∧
    (shBeginScroll setFromEvent ScrollState.initial
        { clientPoint := some ⟨3, 4⟩ }).scrollingInvoked = false ∧
    (shBeginScroll setFromEvent ScrollState.initial
        { clientPoint := some ⟨3, 4⟩ }).returnValue = false ∧
    (shBeginScroll setFromEvent ScrollState.initial
        { clientPoint := some ⟨3, 4⟩ }).state = ScrollState.initial :=
  ⟨rfl, rfl, rfl, rfl⟩

/-- C10: with the default `beginning` callback, which returns `false`, every
session of either drag engine ends right after start extraction: no
listeners are registered on the document scope, no move event is processed,
and `continuing`, `ending`, `clicked` and `cleanup` are never invoked. -/
theorem default_beginning_ends_every_session (cfg : HandleCfg) (mcfg : MTCfg)
    (st : HandleState) (mst : MTState) (startE mStartE : DomEvent)
    (moves mMoves : List DomEvent) (endE mEndE : DomEvent) :
    ((runSession cfg defaultBeginning st startE moves endE).docListenersAdded
        = 0 ∧
      (runSession cfg defaultBeginning st startE moves endE).continuingFlags
        = [] ∧
      (runSession cfg defaultBeginning st startE moves endE).endingInvoked
        = false ∧
      (runSession cfg defaultBeginning st startE moves endE).clickedInvoked
        = false ∧
      (runSession cfg defaultBeginning st startE moves endE).cleanupInvoked
        = false) ∧
    ((mtRunSession mcfg defaultBeginning mst mStartE mMoves mEndE).docListenersAdded
        = 0 ∧
      (mtRunSession mcfg defaultBeginning mst mStartE mMoves mEndE).continuingFlags
        = [] ∧
      (mtRunSession mcfg defaultBeginning mst mStartE mMoves mEndE).endingInvoked
        = false ∧
      (mtRunSession mcfg defaultBeginning mst mStartE mMoves mEndE).clickedInvoked
        = false ∧
      (mtRunSession mcfg defaultBeginning mst mStartE mMoves mEndE).cleanupInvoked
        = false) := by
  constructor
  · have hb : (beginDrag cfg defaultBeginning st startE).2 ≠
        BeginResult.active :=
      beginDrag_not_active_of_false cfg defaultBeginning st startE rfl
    unfold runSession
    rcases hbd : beginDrag cfg defaultBeginning st startE with ⟨st₁, r⟩
    rw [hbd] at hb
    cases r with
    | active => exact absurd rfl hb
    | disabled => exact ⟨rfl, rfl, rfl, rfl, rfl⟩
    | extractionFailed => exact ⟨rfl, rfl, rfl, rfl, rfl⟩
    | vetoed => exact ⟨rfl, rfl, rfl, rfl, rfl⟩
  · have hb : (mtBeginDrag mcfg defaultBeginning mst mStartE).2 ≠
        BeginResult.active := by
      unfold mtBeginDrag
      cases hEn : mst.enabled with
      | false => simp
      | true =>
        simp only [hEn, Bool.not_true, Bool.false_eq_true, if_false]
        cases hT : mStartE.touches.isEmpty with
        | false =>
          simp only [hT, Bool.not_false, if_true]
          cases hP : (mtPushAll mcfg mStartE
              { startPositions := [], absoluteStartPositions := [],
                tempPositions := [], deltaVectors := [],
                enabled := true }
              (List.range mStartE.touches.length)).2 with
          | false => simp [hP]
          | true => simp [hP, defaultBeginning]
        | true =>
          simp only [hT, Bool.not_true, Bool.false_eq_true, if_false]
          cases h₁ : mcfg.extractFromEvent mStartE with
          | error u => simp
          | ok p =>
            cases h₂ : setFromEvent mStartE with
            | error u => simp
            | ok q => simp [defaultBeginning]
    unfold mtRunSession
    rcases hbd : mtBeginDrag mcfg defaultBeginning mst mStartE with ⟨st₁, r⟩
    rw [hbd] at hb
    cases r with
    | active => exact absurd rfl hb
    | disabled => exact ⟨rfl, rfl, rfl, rfl, rfl⟩
    | extractionFailed => exact ⟨rfl, rfl, rfl, rfl, rfl⟩
    | vetoed => exact ⟨rfl, rfl, rfl, rfl, rfl⟩

/-- C4: when coordinate extraction throws on the start event, both drag
engines abandon the session before attaching anything: zero listeners are
registered on the document scope, `beginning` is never invoked, and no other
callback fires. -/
theorem start_extraction_failure_attaches_no_listeners
    (cfg : HandleCfg) (mcfg : MTCfg) (begng mbegng : DomEvent → Bool)
    (st : HandleState) (mst : MTState) (startE mStartE : DomEvent)
    (moves mMoves : List DomEvent) (endE mEndE : DomEvent)
    (hS : cfg.extractFromEvent startE = Except.error () ∨
      setFromEvent startE = Except.error ())
    (hM : mtStartExtractionFails mcfg mStartE) :
    ((runSession cfg begng st startE moves endE).docListenersAdded = 0 ∧
      (runSession cfg begng st startE moves endE).beginningInvoked = false ∧
      (runSession cfg begng st startE moves endE).continuingFlags = [] ∧
      (runSession cfg begng st startE moves endE).endingInvoked = false ∧
      (runSession cfg begng st startE moves endE).clickedInvoked = false ∧
      (runSession cfg begng st startE moves endE).cleanupInvoked = false) ∧
    ((mtRunSession mcfg mbegng mst mStartE mMoves mEndE).docListenersAdded
        = 0 ∧
      (mtRunSession mcfg mbegng mst mStartE mMoves mEndE).beginningInvoked
        = false ∧
      (mtRunSession mcfg mbegng mst mStartE mMoves mEndE).continuingFlags
        = [] ∧
      (mtRunSession mcfg mbegng mst mStartE mMoves mEndE).endingInvoked
        = false ∧
      (mtRunSession mcfg mbegng mst mStartE mMoves mEndE).clickedInvoked
        = false ∧
      (mtRunSession mcfg mbegng mst mStartE mMoves mEndE).cleanupInvoked
        = false) := by
  constructor
  · cases hEn : st.enabled with
    | false =>
      have hbd : beginDrag cfg begng st startE = (st, BeginResult.disabled) := by
        unfold beginDrag
        simp [hEn]
      unfold runSession
      rw [hbd]
      exact ⟨rfl, rfl, rfl, rfl, rfl, rfl⟩
    | true =>
      have hbd := beginDrag_extraction_error cfg begng st startE hS hEn
      unfold runSession
      rw [hbd]
      exact ⟨rfl, rfl, rfl, rfl, rfl, rfl⟩
  · cases hEn : mst.enabled with
    | false =>
      have hbd : mtBeginDrag mcfg mbegng mst mStartE =
          (mst, BeginResult.disabled) := by
        unfold mtBeginDrag
        simp [hEn]
      unfold mtRunSession
      rw [hbd]
      exact ⟨rfl, rfl, rfl, rfl, rfl, rfl⟩
    | true =>
      have h₂ := mtBeginDrag_extraction_error mcfg mbegng mst mStartE hM hEn
      unfold mtRunSession
      rcases hbd : mtBeginDrag mcfg mbegng mst mStartE with ⟨st₁, r⟩
      rw [hbd] at h₂
      simp only at h₂
      subst h₂
      exact ⟨rfl, rfl, rfl, rfl, rfl, rfl⟩

/-- Witness for C4 at a concrete input: the empty event has no client
coordinates, so extraction fails for both engines and the conclusions hold. -/
theorem start_extraction_failure_attaches_no_listeners_witness :
    (setFromEvent {} = Except.error ()) ∧
    mtStartExtractionFails {} {} ∧
    ((runSession {} (fun _ => true) HandleState.initial {} [] {}).docListenersAdded = 0 ∧
      (runSession {} (fun _ => true) HandleState.initial {} [] {}).beginningInvoked = false ∧
      (runSession {} (fun _ => true) HandleState.initial {} [] {}).continuingFlags = [] ∧
      (runSession {} (fun _ => true) HandleState.initial {} [] {}).endingInvoked = false ∧
      (runSession {} (fun _ => true) HandleState.initial {} [] {}).clickedInvoked = false ∧
      (runSession {} (fun _ => true) HandleState.initial {} [] {}).cleanupInvoked = false) ∧
    ((mtRunSession {} (fun _ => true) MTState.initial {} [] {}).docListenersAdded = 0 ∧
      (mtRunSession {} (fun _ => true) MTState.initial {} [] {}).beginningInvoked = false ∧
      (mtRunSession {} (fun _ => true) MTState.initial {} [] {}).continuingFlags = [] ∧
      (mtRunSession {} (fun _ => true) MTState.initial {} [] {}).endingInvoked = false ∧
      (mtRunSession {} (fun _ => true) MTState.initial {} [] {}).clickedInvoked = false ∧
      (mtRunSession {} (fun _ => true) MTState.initial {} [] {}).cleanupInvoked = false) :=
  ⟨rfl, Or.inr rfl,
    start_extraction_failure_attaches_no_listeners {} {} (fun _ => true)
      (fun _ => true) HandleState.initial MTState.initial {} {} [] [] {} {}
      (Or.inr rfl) (Or.inr rfl)⟩

/-- A call arriving before the end of the open throttle window does not
trigger a boundary flush. -/
theorem throttleFlush_no_boundary {α : Type} (T w now : ℤ) (pend : Option α)
    (h : now < w) :
    throttleFlush T { windowEnd := some w, pending := pend } now =
      ({ windowEnd := some w, pending := pend }, []) := by
  unfold throttleFlush
  simp [not_le.mpr h]

/-- A call arriving inside the open throttle window is deferred: it
executes nothing and overwrites the pending slot with its own argument. -/
theorem throttleCall_deferred {α : Type} (T w t : ℤ) (pend : Option α)
    (a : α) (h : t < w) :
    throttleCall T { windowEnd := some w, pending := pend } t a =
      ({ windowEnd := some w, pending := some a }, []) := by
  simp [throttleCall, throttleFlush_no_boundary T w t pend h]

/-- Running any nonempty batch of calls that all arrive inside the open
window defers them all: nothing executes and only the last argument
survives in the pending slot. -/
theorem throttleRun_all_deferred {α : Type} (T w : ℤ) (pend : Option α)
    (more : List (ℤ × α)) (la : ℤ × α)
    (hlast : more.getLast? = some la) (hwin : ∀ p ∈ more, p.1 < w) :
    throttleRun T { windowEnd := some w, pending := pend } more =
      ({ windowEnd := some w, pending := some la.2 }, []) := by
  induction more generalizing pend with
  | nil => simp at hlast
  | cons hd tl ih =>
    obtain ⟨t, a⟩ := hd
    have hhd : t < w := by
      have := hwin (t, a) (List.mem_cons_self (t, a) tl)
      simpa using this
    unfold throttleRun
    rw [throttleCall_deferred T w t pend a hhd]
    cases tl with
    | nil =>
      simp only [List.getLast?_singleton, Option.some.injEq] at hlast
      subst hlast
      rfl
    | cons x xs =>
      rw [List.getLast?_cons_cons] at hlast
      have hwin₂ : ∀ p ∈ x :: xs, p.1 < w := fun p hp =>
        hwin p (List.mem_cons_of_mem (t, a) hp)
      simp [ih (some a) hlast hwin₂]

/-- C7: one move delivered to the deferring throttle at time `t₀`, followed
by any nonempty batch of further moves arriving before the interval `T`
elapses, produces exactly two executions: the immediate one with the first
argument and one deferred execution at the boundary `t₀ + T` carrying the
most recent argument; the intermediate arguments are discarded, never
queued or reordered. -/
theorem throttle_trailing_edge {α : Type} (T t₀ : ℤ) (a₀ : α)
    (more : List (ℤ × α)) (la : ℤ × α)
    (hlast : more.getLast? = some la)
    (hwin : ∀ p ∈ more, p.1 < t₀ + T) :
    throttleTrace T ((t₀, a₀) :: more) = [(t₀, a₀), (t₀ + T, la.2)] := by
  have hfirst : throttleCall T { windowEnd := none, pending := none } t₀ a₀ =
      ({ windowEnd := some (t₀ + T), pending := none }, [(t₀, a₀)]) := rfl
  have h₁ : throttleRun T { windowEnd := none, pending := none }
      ((t₀, a₀) :: more) =
      ({ windowEnd := some (t₀ + T), pending := some la.2 }, [(t₀, a₀)]) := by
    unfold throttleRun
    rw [hfirst]
    simp [throttleRun_all_deferred T (t₀ + T) none more la hlast hwin]
  unfold throttleTrace
  rw [h₁]
  rfl

/-- Witness for C7 at a concrete input: a call at time 0 followed by two
more calls inside the 40ms window yields exactly the immediate execution
and one boundary execution with the last argument. -/
theorem throttle_trailing_edge_witness :
    (([(10, 1), (20, 2)] : List (ℤ × ℕ)).getLast? = some (20, 2)) ∧
    (∀ p ∈ ([(10, 1), (20, 2)] : List (ℤ × ℕ)), p.1 < 0 + 40) ∧
    throttleTrace 40 (((0, 0) : ℤ × ℕ) :: [(10, 1), (20, 2)]) =
      [(0, 0), (0 + 40, 2)] :=
  ⟨by decide, by decide,
    throttle_trailing_edge 40 0 0 [(10, 1), (20, 2)] (20, 2) (by decide)
      (by decide)⟩

/-- Case analysis of one `continueDrag` step: `continuing` only fires on a
first-threshold or already-dragged step, `dragged` is monotone, and after
`dragged` every successfully processed move fires `continuing`. -/
theorem moveStep_props (cfg : HandleCfg) (st : HandleState) (d : Bool)
    (e : DomEvent) :
    ((moveStep cfg st d e).continuingInvoked = true → d = false →
      Vector2.lengthGe (moveStep cfg st d e).state.delta
        cfg.minimumDragDistance = true) ∧
    (d = true → (moveStep cfg st d e).dragged = true) ∧
    ((moveStep cfg st d e).continuingInvoked = true →
      (moveStep cfg st d e).dragged = true) ∧
    (d = true → moveProcessed st e = true →
      (moveStep cfg st d e).continuingInvoked = true) := by
  unfold moveStep moveProcessed
  cases hs : st.start with
  | none => simp [hs]
  | some s =>
    cases ha : st.absoluteStart with
    | none => simp [hs, ha]
    | some aS =>
      cases hx : setFromEvent e with
      | error u => simp [hs, ha, hx]
      | ok c =>
        cases d with
        | true => simp [hs, ha, hx]
        | false =>
          cases ht : (c.sub aS).lengthGe cfg.minimumDragDistance with
          | true => simp [hs, ha, hx, ht]
          | false => simp [hs, ha, hx, ht]

/-- C3: within a session whose move events split as `l₁ ++ e :: l₂`, after
the prefix `l₁` has been processed from the session start (where `dragged`
is `false`): `continuing` fires at `e` while `dragged` is still `false` only
when the delta recomputed at `e` reaches `minimumDragDistance` (so
`continuing` never fires before the threshold is first reached); a `dragged`
flag that is already `true` stays `true` (never reverts); a firing step
leaves `dragged` set; and once `dragged` is `true` every successfully
processed move event invokes `continuing`. -/
theorem continuing_gated_by_threshold_and_monotone (cfg : HandleCfg)
    (st₀ : HandleState) (moves l₁ l₂ : List DomEvent) (e : DomEvent)
    (hsplit : moves = l₁ ++ e :: l₂) :
    ((moveStep cfg (processMoves cfg st₀ false l₁).1
        (processMoves cfg st₀ false l₁).2.1 e).continuingInvoked = true →
      (processMoves cfg st₀ false l₁).2.1 = false →
      Vector2.lengthGe (moveStep cfg (processMoves cfg st₀ false l₁).1
        (processMoves cfg st₀ false l₁).2.1 e).state.delta
        cfg.minimumDragDistance = true) ∧
    ((processMoves cfg st₀ false l₁).2.1 = true →
      (moveStep cfg (processMoves cfg st₀ false l₁).1
        (processMoves cfg st₀ false l₁).2.1 e).dragged = true) ∧
    ((moveStep cfg (processMoves cfg st₀ false l₁).1
        (processMoves cfg st₀ false l₁).2.1 e).continuingInvoked = true →
      (moveStep cfg (processMoves cfg st₀ false l₁).1
        (processMoves cfg st₀ false l₁).2.1 e).dragged = true) ∧
    ((processMoves cfg st₀ false l₁).2.1 = true →
      moveProcessed (processMoves cfg st₀ false l₁).1 e = true →
      (moveStep cfg (processMoves cfg st₀ false l₁).1
        (processMoves cfg st₀ false l₁).2.1 e).continuingInvoked = true) :=
  moveStep_props cfg (processMoves cfg st₀ false l₁).1
    (processMoves cfg st₀ false l₁).2.1 e

/-- Witness for C3 at a concrete input: the session starting at (0,0) with
the single move event to (10,10). -/
theorem continuing_gated_by_threshold_and_monotone_witness :
    ([({ clientPoint := some ⟨10, 10⟩ } : DomEvent)] =
      [] ++ ({ clientPoint := some ⟨10, 10⟩ } : DomEvent) :: []) ∧
    (((moveStep {}
        (processMoves {} ⟨some ⟨0, 0⟩, some ⟨0, 0⟩, Vector2.zero, Vector2.zero, true⟩ false []).1
        (processMoves {} ⟨some ⟨0, 0⟩, some ⟨0, 0⟩, Vector2.zero, Vector2.zero, true⟩ false []).2.1
        { clientPoint := some ⟨10, 10⟩ }).continuingInvoked = true →
      (processMoves {} ⟨some ⟨0, 0⟩, some ⟨0, 0⟩, Vector2.zero, Vector2.zero, true⟩ false []).2.1 = false →
      Vector2.lengthGe (moveStep {}
        (processMoves {} ⟨some ⟨0, 0⟩, some ⟨0, 0⟩, Vector2.zero, Vector2.zero, true⟩ false []).1
        (processMoves {} ⟨some ⟨0, 0⟩, some ⟨0, 0⟩, Vector2.zero, Vector2.zero, true⟩ false []).2.1
        { clientPoint := some ⟨10, 10⟩ }).state.delta
        (HandleCfg.minimumDragDistance {}) = true) ∧
      ((processMoves {} ⟨some ⟨0, 0⟩, some ⟨0, 0⟩, Vector2.zero, Vector2.zero, true⟩ false []).2.1 = true →
        (moveStep {}
          (processMoves {} ⟨some ⟨0, 0⟩, some ⟨0, 0⟩, Vector2.zero, Vector2.zero, true⟩ false []).1
          (processMoves {} ⟨some ⟨0, 0⟩, some ⟨0, 0⟩, Vector2.zero, Vector2.zero, true⟩ false []).2.1
          { clientPoint := some ⟨10, 10⟩ }).dragged = true) ∧
      ((moveStep {}
          (processMoves {} ⟨some ⟨0, 0⟩, some ⟨0, 0⟩, Vector2.zero, Vector2.zero, true⟩ false []).1
          (processMoves {} ⟨some ⟨0, 0⟩, some ⟨0, 0⟩, Vector2.zero, Vector2.zero, true⟩ false []).2.1
          { clientPoint := some ⟨10, 10⟩ }).continuingInvoked = true →
        (moveStep {}
          (processMoves {} ⟨some ⟨0, 0⟩, some ⟨0, 0⟩, Vector2.zero, Vector2.zero, true⟩ false []).1
          (processMoves {} ⟨some ⟨0, 0⟩, some ⟨0, 0⟩, Vector2.zero, Vector2.zero, true⟩ false []).2.1
          { clientPoint := some ⟨10, 10⟩ }).dragged = true) ∧
      ((processMoves {} ⟨some ⟨0, 0⟩, some ⟨0, 0⟩, Vector2.zero, Vector2.zero, true⟩ false []).2.1 = true →
        moveProcessed
          (processMoves {} ⟨some ⟨0, 0⟩, some ⟨0, 0⟩, Vector2.zero, Vector2.zero, true⟩ false []).1
          { clientPoint := some ⟨10, 10⟩ } = true →
        (moveStep {}
          (processMoves {} ⟨some ⟨0, 0⟩, some ⟨0, 0⟩, Vector2.zero, Vector2.zero, true⟩ false []).1
          (processMoves {} ⟨some ⟨0, 0⟩, some ⟨0, 0⟩, Vector2.zero, Vector2.zero, true⟩ false []).2.1
          { clientPoint := some ⟨10, 10⟩ }).continuingInvoked = true)) :=
  ⟨rfl,
    continuing_gated_by_threshold_and_monotone {}
      ⟨some ⟨0, 0⟩, some ⟨0, 0⟩, Vector2.zero, Vector2.zero, true⟩
      [{ clientPoint := some ⟨10, 10⟩ }] [] []
      { clientPoint := some ⟨10, 10⟩ } rfl⟩

/-- One `continueDrag` step never changes the start positions or the
enabled flag. -/
theorem moveStep_preserves (cfg : HandleCfg) (st : HandleState) (d : Bool)
    (e : DomEvent) :
    (moveStep cfg st d e).state.start = st.start ∧
    (moveStep cfg st d e).state.absoluteStart = st.absoluteStart := by
  unfold moveStep
  cases hs : st.start with
  | none => simp [hs]
  | some s =>
    cases ha : st.absoluteStart with
    | none => simp [hs, ha]
    | some aS =>
      cases hx : setFromEvent e with
      | error u => simp [hs, ha, hx]
      | ok c =>
        cases d with
        | true => simp [hs, ha, hx]
        | false =>
          cases ht : (c.sub aS).lengthGe cfg.minimumDragDistance with
          | true => simp [hs, ha, hx, ht]
          | false => simp [hs, ha, hx, ht]

/-- A batch of `continueDrag` steps never changes the start positions. -/
theorem processMoves_preserves (cfg : HandleCfg) (l : List DomEvent) :
    ∀ (st : HandleState) (d : Bool),
      (processMoves cfg st d l).1.start = st.start ∧
      (processMoves cfg st d l).1.absoluteStart = st.absoluteStart := by
  induction l with
  | nil => intro st d; exact ⟨rfl, rfl⟩
  | cons e rest ih =>
    intro st d
    unfold processMoves
    obtain ⟨hp₁, hp₂⟩ := moveStep_preserves cfg st d e
    obtain ⟨hr₁, hr₂⟩ := ih (moveStep cfg st d e).state (moveStep cfg st d e).dragged
    exact ⟨hr₁.trans hp₁, hr₂.trans hp₂⟩

/-- One `continueDrag` step behaves identically in two engines that agree on
`minimumDragDistance`, on the presence of a start position, on the absolute
start position and on the current delta: the custom extractor and the start
value play no role in a move step. -/
theorem moveStep_congr (cfg₁ cfg₂ : HandleCfg)
    (hmin : cfg₁.minimumDragDistance = cfg₂.minimumDragDistance)
    (st₁ st₂ : HandleState) (hsome : st₁.start.isSome = st₂.start.isSome)
    (habs : st₁.absoluteStart = st₂.absoluteStart)
    (hdelta : st₁.delta = st₂.delta) (d : Bool) (e : DomEvent) :
    (moveStep cfg₁ st₁ d e).dragged = (moveStep cfg₂ st₂ d e).dragged ∧
    (moveStep cfg₁ st₁ d e).continuingInvoked =
      (moveStep cfg₂ st₂ d e).continuingInvoked ∧
    (moveStep cfg₁ st₁ d e).state.delta =
      (moveStep cfg₂ st₂ d e).state.delta := by
  unfold moveStep
  cases hs₁ : st₁.start with
  | none =>
    cases hs₂ : st₂.start with
    | none => simp [hs₁, hs₂, hdelta]
    | some s₂ => rw [hs₁, hs₂] at hsome; simp at hsome
  | some s₁ =>
    cases hs₂ : st₂.start with
    | none => rw [hs₁, hs₂] at hsome; simp at hsome
    | some s₂ =>
      cases ha₂ : st₂.absoluteStart with
      | none =>
        have ha₁ : st₁.absoluteStart = none := habs.trans ha₂
        simp [hs₁, hs₂, ha₁, ha₂, hdelta]
      | some aS =>
        have ha₁ : st₁.absoluteStart = some aS := habs.trans ha₂
        cases hx : setFromEvent e with
        | error u => simp [hs₁, hs₂, ha₁, ha₂, hx, hdelta]
        | ok c =>
          cases d with
          | true => simp [hs₁, hs₂, ha₁, ha₂, hx]
          | false =>
            cases ht : (c.sub aS).lengthGe cfg₁.minimumDragDistance with
            | true => simp [hs₁, hs₂, ha₁, ha₂, hx, ht, hmin ▸ ht]
            | false => simp [hs₁, hs₂, ha₁, ha₂, hx, ht, hmin ▸ ht]

/-- A whole batch of move events behaves identically in two engines that
agree on everything except the custom extractor and the concrete start
values: same `continuing` flags, same final `dragged` flag, same final
delta. -/
theorem processMoves_congr (cfg₁ cfg₂ : HandleCfg)
    (hmin : cfg₁.minimumDragDistance = cfg₂.minimumDragDistance)
    (l : List DomEvent) :
    ∀ (st₁ st₂ : HandleState) (d : Bool),
      st₁.start.isSome = st₂.start.isSome →
      st₁.absoluteStart = st₂.absoluteStart →
      st₁.delta = st₂.delta →
      (processMoves cfg₁ st₁ d l).2.1 = (processMoves cfg₂ st₂ d l).2.1 ∧
      (processMoves cfg₁ st₁ d l).2.2 = (processMoves cfg₂ st₂ d l).2.2 ∧
      (processMoves cfg₁ st₁ d l).1.delta =
        (processMoves cfg₂ st₂ d l).1.delta := by
  induction l with
  | nil => intro st₁ st₂ d hsome habs hdelta; exact ⟨rfl, rfl, hdelta⟩
  | cons e rest ih =>
    intro st₁ st₂ d hsome habs hdelta
    obtain ⟨hd, hc, hδ⟩ := moveStep_congr cfg₁ cfg₂ hmin st₁ st₂ hsome habs
      hdelta d e
    obtain ⟨hp₁, hp₂⟩ := moveStep_preserves cfg₁ st₁ d e
    obtain ⟨hq₁, hq₂⟩ := moveStep_preserves cfg₂ st₂ d e
    have hsome₂ : (moveStep cfg₁ st₁ d e).state.start.isSome =
        (moveStep cfg₂ st₂ d e).state.start.isSome := by
      rw [hp₁, hq₁, hsome]
    have habs₂ : (moveStep cfg₁ st₁ d e).state.absoluteStart =
        (moveStep cfg₂ st₂ d e).state.absoluteStart := by
      rw [hp₂, hq₂, habs]
    obtain ⟨hr₁, hr₂, hr₃⟩ := ih (moveStep cfg₁ st₁ d e).state
      (moveStep cfg₂ st₂ d e).state (moveStep cfg₁ st₁ d e).dragged hsome₂
      habs₂ hδ
    unfold processMoves
    rw [hd] at hr₁ hr₂ hr₃
    simp only [hd]
    exact ⟨hr₁, by rw [hc, hr₂], hr₃⟩

/-- On a successfully processed move event, the step stores
`delta = absoluteCurrent - absoluteStart` and `temp = start + delta`,
independently of the drag flag and the threshold branch. -/
theorem moveStep_success (cfg : HandleCfg) (st : HandleState) (d : Bool)
    (e : DomEvent) (s aS c : Vector2) (hs : st.start = some s)
    (ha : st.absoluteStart = some aS) (hx : setFromEvent e = Except.ok c) :
    (moveStep cfg st d e).state.delta = c.sub aS ∧
    (moveStep cfg st d e).state.temp = s.add (c.sub aS) := by
  unfold moveStep
  cases d with
  | true => simp [hs, ha, hx]
  | false =>
    cases ht : (c.sub aS).lengthGe cfg.minimumDragDistance with
    | true => simp [hs, ha, hx, ht]
    | false => simp [hs, ha, hx, ht]

/-- C2: consider two engines that differ only in the custom
`extractFromEvent`, both starting a session on the same start event (with
custom start positions `p₁` and `p₂` and shared absolute start `aS`) and
then processing the same move events `l` followed by a move `e` whose
absolute extraction yields `aC`.  The `continuing` flags over the prefix
agree, the step at `e` fires identically, both engines store the identical
`delta = aC - aS` computed from the absolute extractor, each stores
`temp = start + delta`, and the two `temp` values differ exactly by the
offset `p₂ - p₁` the custom extractors introduce. -/
theorem delta_independent_of_custom_extractor (cfg₁ cfg₂ : HandleCfg)
    (hmin : cfg₁.minimumDragDistance = cfg₂.minimumDragDistance)
    (begng : DomEvent → Bool) (st₀ : HandleState) (startE : DomEvent)
    (p₁ p₂ aS : Vector2)
    (h₁ : cfg₁.extractFromEvent startE = Except.ok p₁)
    (h₂ : cfg₂.extractFromEvent startE = Except.ok p₂)
    (hA : setFromEvent startE = Except.ok aS)
    (hEn : st₀.enabled = true) (hB : begng startE = true)
    (l : List DomEvent) (e : DomEvent) (aC : Vector2)
    (hC : setFromEvent e = Except.ok aC) :
    let B₁ := (beginDrag cfg₁ begng st₀ startE).1
    let B₂ := (beginDrag cfg₂ begng st₀ startE).1
    let P₁ := processMoves cfg₁ B₁ false l
    let P₂ := processMoves cfg₂ B₂ false l
    let M₁ := moveStep cfg₁ P₁.1 P₁.2.1 e
    let M₂ := moveStep cfg₂ P₂.1 P₂.2.1 e
    B₁.start = some p₁ ∧ B₂.start = some p₂ ∧
    P₁.2.2 = P₂.2.2 ∧
    M₁.continuingInvoked = M₂.continuingInvoked ∧
    M₁.state.delta = aC.sub aS ∧ M₂.state.delta = aC.sub aS ∧
    M₁.state.temp = p₁.add (aC.sub aS) ∧
    M₂.state.temp = p₂.add (aC.sub aS) ∧
    (M₂.state.temp).sub M₁.state.temp = p₂.sub p₁ := by
  have hbd₁ : beginDrag cfg₁ begng st₀ startE =
      ({ st₀ with start := some p₁, absoluteStart := some aS },
        BeginResult.active) := by
    unfold beginDrag
    simp [hEn, h₁, hA, hB]
  have hbd₂ : beginDrag cfg₂ begng st₀ startE =
      ({ st₀ with start := some p₂, absoluteStart := some aS },
        BeginResult.active) := by
    unfold beginDrag
    simp [hEn, h₂, hA, hB]
  simp only [hbd₁, hbd₂]
  obtain ⟨hs₁, ha₁⟩ := processMoves_preserves cfg₁ l
    { st₀ with start := some p₁, absoluteStart := some aS } false
  obtain ⟨hs₂, ha₂⟩ := processMoves_preserves cfg₂ l
    { st₀ with start := some p₂, absoluteStart := some aS } false
  obtain ⟨hcd, hcf, hcδ⟩ := processMoves_congr cfg₁ cfg₂ hmin l
    { st₀ with start := some p₁, absoluteStart := some aS }
    { st₀ with start := some p₂, absoluteStart := some aS } false rfl rfl rfl
  obtain ⟨hδ₁, ht₁⟩ := moveStep_success cfg₁
    (processMoves cfg₁ { st₀ with start := some p₁, absoluteStart := some aS }
      false l).1
    (processMoves cfg₁ { st₀ with start := some p₁, absoluteStart := some aS }
      false l).2.1 e p₁ aS aC hs₁ ha₁ hC
  obtain ⟨hδ₂, ht₂⟩ := moveStep_success cfg₂
    (processMoves cfg₂ { st₀ with start := some p₂, absoluteStart := some aS }
      false l).1
    (processMoves cfg₂ { st₀ with start := some p₂, absoluteStart := some aS }
      false l).2.1 e p₂ aS aC hs₂ ha₂ hC
  obtain ⟨hmd, hmc, hmδ⟩ := moveStep_congr cfg₁ cfg₂ hmin
    (processMoves cfg₁ { st₀ with start := some p₁, absoluteStart := some aS }
      false l).1
    (processMoves cfg₂ { st₀ with start := some p₂, absoluteStart := some aS }
      false l).1
    (by rw [hs₁, hs₂]; rfl)
    (by rw [ha₁, ha₂]) hcδ
    (processMoves cfg₁ { st₀ with start := some p₁, absoluteStart := some aS }
      false l).2.1 e
  refine ⟨trivial, trivial, hcf, ?_, hδ₁, hδ₂, ht₁, ht₂, ?_⟩
  · rw [hmc, hcd]
  · rw [ht₁, ht₂]
    exact Vector2.add_sub_add p₂ p₁ (aC.sub aS)

/-- Witness for C2 at a concrete input: the default engine against an
engine whose custom extractor reports the constant point (100,100), with a
session starting at client point (1,2) and one move to (7,8). -/
theorem delta_independent_of_custom_extractor_witness :
    (({} : HandleCfg).minimumDragDistance = ({ minimumDragDistance := 5, extractFromEvent := fun _ => Except.ok ⟨100, 100⟩ } : HandleCfg).minimumDragDistance) ∧
    (({} : HandleCfg).extractFromEvent { clientPoint := some ⟨1, 2⟩ } = Except.ok ⟨1, 2⟩) ∧
    (({ minimumDragDistance := 5, extractFromEvent := fun _ => Except.ok ⟨100, 100⟩ } : HandleCfg).extractFromEvent { clientPoint := some ⟨1, 2⟩ } = Except.ok ⟨100, 100⟩) ∧
    (setFromEvent { clientPoint := some ⟨1, 2⟩ } = Except.ok ⟨1, 2⟩) ∧
    (setFromEvent { clientPoint := some ⟨7, 8⟩ } = Except.ok ⟨7, 8⟩) ∧
    (let B₁ := (beginDrag {} (fun _ => true) HandleState.initial { clientPoint := some ⟨1, 2⟩ }).1
     let B₂ := (beginDrag { minimumDragDistance := 5, extractFromEvent := fun _ => Except.ok ⟨100, 100⟩ } (fun _ => true) HandleState.initial { clientPoint := some ⟨1, 2⟩ }).1
     let P₁ := processMoves {} B₁ false []
     let P₂ := processMoves { minimumDragDistance := 5, extractFromEvent := fun _ => Except.ok ⟨100, 100⟩ } B₂ false []
     let M₁ := moveStep {} P₁.1 P₁.2.1 { clientPoint := some ⟨7, 8⟩ }
     let M₂ := moveStep { minimumDragDistance := 5, extractFromEvent := fun _ => Except.ok ⟨100, 100⟩ } P₂.1 P₂.2.1 { clientPoint := some ⟨7, 8⟩ }
     B₁.start = some ⟨1, 2⟩ ∧ B₂.start = some ⟨100, 100⟩ ∧
     P₁.2.2 = P₂.2.2 ∧
     M₁.continuingInvoked = M₂.continuingInvoked ∧
     M₁.state.delta = Vector2.sub ⟨7, 8⟩ ⟨1, 2⟩ ∧
     M₂.state.delta = Vector2.sub ⟨7, 8⟩ ⟨1, 2⟩ ∧
     M₁.state.temp = Vector2.add ⟨1, 2⟩ (Vector2.sub ⟨7, 8⟩ ⟨1, 2⟩) ∧
     M₂.state.temp = Vector2.add ⟨100, 100⟩ (Vector2.sub ⟨7, 8⟩ ⟨1, 2⟩) ∧
     (M₂.state.temp).sub M₁.state.temp = Vector2.sub ⟨100, 100⟩ ⟨1, 2⟩) :=
  ⟨rfl, rfl, rfl, rfl, rfl,
    delta_independent_of_custom_extractor {}
      { minimumDragDistance := 5, extractFromEvent := fun _ => Except.ok ⟨100, 100⟩ }
      rfl (fun _ => true) HandleState.initial { clientPoint := some ⟨1, 2⟩ }
      ⟨1, 2⟩ ⟨100, 100⟩ ⟨1, 2⟩ rfl rfl rfl rfl rfl []
      { clientPoint := some ⟨7, 8⟩ } ⟨7, 8⟩ rfl⟩
